import Mathlib

/-!
Verification of the bunserve/cbxchat WebSocket chat backend.

The server under verification is the Bun/TypeScript backend `ws-server.ts`
(embedded in the repository README).  Its state is three insertion-ordered
maps (`clients`, `clientInfo`, `clientIp`) plus a global `messagesSent`
counter; inbound frames are decoded by `parseIncoming`, validated by
`validateName` / `validateText`, and dispatched by the `message` handler,
which mutates the registry and emits outbound messages via `send` and
`broadcast`.

JavaScript `Map` preserves insertion order and `set` on an existing key
keeps its position, so the maps are embedded as association lists with
`mapSet` updating in place and appending fresh keys.  `JSON.parse` is
embedded as a fuel-indexed recursive-descent parser over the character
list; number lexemes are kept as strings because the server never inspects
a numeric field of an inbound frame.
-/

namespace Chatserver

/-- JSON values as produced by `JSON.parse`.  Numbers keep their source
lexeme: the server only ever pattern-matches string-typed fields. -/
inductive Json where
  | null : Json
  | bool (b : Bool) : Json
  | num (lexeme : String) : Json
  | str (s : String) : Json
  | arr (items : List Json) : Json
  | obj (fields : List (String × Json)) : Json

/-- Last-wins lookup in a JSON object's field list: `JSON.parse` lets a
duplicated key overwrite the earlier binding. -/
def lookupLast (fields : List (String × Json)) (key : String) : Option Json :=
  fields.foldl (fun acc kv => if kv.1 = key then some kv.2 else acc) none

/-- JavaScript member access `data?.key` on a parsed JSON value: only
objects have fields, every other value yields `undefined` (here `none`). -/
def jsGet (j : Json) (key : String) : Option Json :=
  match j with
  | .obj fields => lookupLast fields key
  | _ => none

/-- Whitespace admitted between JSON tokens (RFC 8259). -/
def isJsonWs (c : Char) : Bool :=
  c = ' ' || c = '\t' || c = '\n' || c = '\r'

/-- Drop leading JSON whitespace. -/
def skipWs (cs : List Char) : List Char :=
  cs.dropWhile isJsonWs

/-- Value of a hexadecimal digit, if the character is one (code points
48-57 are `0`-`9`, 97-102 are `a`-`f`, 65-70 are `A`-`F`). -/
def hexVal (c : Char) : Option Nat :=
  let n := c.toNat
  if 48 ≤ n && n ≤ 57 then some (n - 48)
  else if 97 ≤ n && n ≤ 102 then some (n - 87)
  else if 65 ≤ n && n ≤ 70 then some (n - 55)
  else none

/-- Decimal digit test. -/
def isDigitChar (c : Char) : Bool :=
  48 ≤ c.toNat && c.toNat ≤ 57

/-- Longest digit prefix and the remainder. -/
def takeDigits (cs : List Char) : List Char × List Char :=
  cs.span isDigitChar

/-- Body of a JSON string literal after the opening quote, with the
standard escapes; `\uXXXX` is decoded with `Char.ofNat` (a lone surrogate
is approximated by the replacement it clamps to).  Fuel bounds the
recursion by the remaining input length. -/
def parseStringBody : Nat → List Char → List Char → Option (String × List Char)
  | 0, _, _ => none
  | _ + 1, [], _ => none
  | f + 1, c :: rest, acc =>
    if c = '"' then some (String.mk acc.reverse, rest)
    else if c = '\\' then
      match rest with
      | [] => none
      | e :: rest2 =>
        if e = '"' then parseStringBody f rest2 ('"' :: acc)
        else if e = '\\' then parseStringBody f rest2 ('\\' :: acc)
        else if e = '/' then parseStringBody f rest2 ('/' :: acc)
        else if e = 'b' then parseStringBody f rest2 ('\x08' :: acc)
        else if e = 'f' then parseStringBody f rest2 ('\x0c' :: acc)
        else if e = 'n' then parseStringBody f rest2 ('\n' :: acc)
        else if e = 'r' then parseStringBody f rest2 ('\r' :: acc)
        else if e = 't' then parseStringBody f rest2 ('\t' :: acc)
        else if e = 'u' then
          match rest2 with
          | h1 :: h2 :: h3 :: h4 :: rest3 =>
            match hexVal h1, hexVal h2, hexVal h3, hexVal h4 with
            | some a, some b, some c2, some d =>
              parseStringBody f rest3 (Char.ofNat (((a * 16 + b) * 16 + c2) * 16 + d) :: acc)
            | _, _, _, _ => none
          | _ => none
        else none
    else if c.toNat < 0x20 then none
    else parseStringBody f rest (c :: acc)

/-- JSON number lexeme: optional minus, integer part without leading
zeros, optional fraction, optional exponent.  Returns the lexeme and the
remaining input. -/
def parseNumberLex (cs : List Char) : Option (String × List Char) :=
  let step1 : Option (List Char × List Char) :=
    match cs with
    | '-' :: rest => some (['-'], rest)
    | _ => some ([], cs)
  match step1 with
  | none => none
  | some (sign, afterSign) =>
    let intPart : Option (List Char × List Char) :=
      match afterSign with
      | '0' :: rest => some (['0'], rest)
      | c :: _ =>
        if isDigitChar c then
          let r := takeDigits afterSign
          some (r.1, r.2)
        else none
      | [] => none
    match intPart with
    | none => none
    | some (ip, afterInt) =>
      let frac : Option (List Char × List Char) :=
        match afterInt with
        | '.' :: rest =>
          let r := takeDigits rest
          if r.1.isEmpty then none else some ('.' :: r.1, r.2)
        | _ => some ([], afterInt)
      match frac with
      | none => none
      | some (fp, afterFrac) =>
        let expo : Option (List Char × List Char) :=
          match afterFrac with
          | e :: rest =>
            if e = 'e' || e = 'E' then
              match rest with
              | s :: rest2 =>
                if s = '+' || s = '-' then
                  let r := takeDigits rest2
                  if r.1.isEmpty then none else some (e :: s :: r.1, r.2)
                else
                  let r := takeDigits rest
                  if r.1.isEmpty then none else some (e :: r.1, r.2)
              | [] => none
            else some ([], afterFrac)
          | [] => some ([], afterFrac)
        match expo with
        | none => none
        | some (ep, afterExp) =>
          some (String.mk (sign ++ ip ++ fp ++ ep), afterExp)

/-- Parsing obligations of the recursive-descent JSON parser: a whole
value, the tail of an array after its first element, or the tail of an
object after its first field. -/
inductive PTask where
  | value : PTask
  | arrRest (acc : List Json) : PTask
  | objRest (acc : List (String × Json)) : PTask

/-- One fuel-indexed recursive-descent parser covering values, array
tails and object tails.  Every recursive call strictly decreases the
fuel, and each nesting level consumes input, so fuel `length + 2` is
enough for every well-formed input (see `jsonParse`). -/
def parseF : Nat → PTask → List Char → Option (Json × List Char)
  | 0, _, _ => none
  | f + 1, .value, cs =>
    match skipWs cs with
    | [] => none
    | 'n' :: 'u' :: 'l' :: 'l' :: rest => some (.null, rest)
    | 't' :: 'r' :: 'u' :: 'e' :: rest => some (.bool true, rest)
    | 'f' :: 'a' :: 'l' :: 's' :: 'e' :: rest => some (.bool false, rest)
    | '"' :: rest =>
      match parseStringBody (rest.length + 1) rest [] with
      | some (s, rest2) => some (.str s, rest2)
      | none => none
    | '[' :: rest =>
      match skipWs rest with
      | ']' :: rest2 => some (.arr [], rest2)
      | rest2 =>
        match parseF f .value rest2 with
        | some (v, rest3) => parseF f (.arrRest [v]) rest3
        | none => none
    | '{' :: rest =>
      match skipWs rest with
      | '}' :: rest2 => some (.obj [], rest2)
      | rest2 => parseF f (.objRest []) ('{' :: rest2)
    | cs1 =>
      match parseNumberLex cs1 with
      | some (lex, rest) => some (.num lex, rest)
      | none => none
  | f + 1, .arrRest acc, cs =>
    match skipWs cs with
    | ']' :: rest => some (.arr acc.reverse, rest)
    | ',' :: rest =>
      match parseF f .value rest with
      | some (v, rest2) => parseF f (.arrRest (v :: acc)) rest2
      | none => none
    | _ => none
  | f + 1, .objRest acc, cs =>
    match skipWs cs with
    | sep :: rest =>
      if sep = '{' && acc.isEmpty || sep = ',' then
        match skipWs rest with
        | '"' :: rest2 =>
          match parseStringBody (rest2.length + 1) rest2 [] with
          | some (k, rest3) =>
            match skipWs rest3 with
            | ':' :: rest4 =>
              match parseF f .value rest4 with
              | some (v, rest5) => parseF f (.objRest ((k, v) :: acc)) rest5
              | none => none
            | _ => none
          | none => none
        | _ => none
      else if sep = '}' then some (.obj acc.reverse, rest)
      else none
    | [] => none

/-- Model of `JSON.parse`: parse one JSON value surrounded by optional whitespace;
`none` models the thrown `SyntaxError`. -/
def jsonParse (raw : String) : Option Json :=
  match parseF (raw.length + 2) .value raw.data with
  | some (v, rest) =>
    match skipWs rest with
    | [] => some v
    | _ => none
  | none => none

/-- ECMAScript whitespace as removed by `String.prototype.trim`:
WhiteSpace (tab, VT, FF, space, NBSP, BOM, Unicode space separators)
and LineTerminator (LF, CR, LS, PS). -/
def isJsWsChar (c : Char) : Bool :=
  let n := c.toNat
  (0x9 ≤ n && n ≤ 0xD) || n = 0x20 || n = 0xA0 || n = 0x1680 ||
  (0x2000 ≤ n && n ≤ 0x200A) || n = 0x2028 || n = 0x2029 ||
  n = 0x202F || n = 0x205F || n = 0x3000 || n = 0xFEFF

/-- JavaScript `s.trim()`: strip leading and trailing whitespace. -/
def jsTrim (s : String) : String :=
  String.mk (((s.data.dropWhile isJsWsChar).reverse.dropWhile isJsWsChar).reverse)

/-- The `IncomingMessage` union of `ws-server.ts`, together with the
`{ type: "error", message }` value that `parseIncoming` returns on a
decode failure. -/
inductive Incoming where
  | chat (text : String)
  | setName (name : String)
  | status
  | listUsers
  | err (message : String)
deriving DecidableEq

/-- Decoder `parseIncoming` of `ws-server.ts`.  A `JSON.parse` exception yields
the malformed-JSON error; the source's four sequential `if` guards are
rendered as one match on the `type` tag, which is equivalent because the
tag is a single string, so at most one guard can fire and a fired guard
with the payload field missing or non-string falls through to the
unknown-type error either way. -/
def parseIncoming (raw : String) : Incoming :=
  match jsonParse raw with
  | none => .err "Bericht moet JSON zijn."
  | some data =>
    match jsGet data "type" with
    | some (.str "chat") =>
      match jsGet data "text" with
      | some (.str text) => .chat text
      | _ => .err "Onbekend of onvolledig berichttype."
    | some (.str "setName") =>
      match jsGet data "name" with
      | some (.str name) => .setName name
      | _ => .err "Onbekend of onvolledig berichttype."
    | some (.str "status") => .status
    | some (.str "listUsers") => .listUsers
    | _ => .err "Onbekend of onvolledig berichttype."

/-- Validator `validateName`: only the trimmed length is checked. -/
def validateName (name : String) : Option String :=
  let trimmed := jsTrim name
  if trimmed.length < 2 || trimmed.length > 32 then
    some "Naam moet tussen 2 en 32 tekens zijn."
  else none

/-- Validator `validateText`: trimmed text must be non-empty (`!trimmed` is
string falsiness) and at most 500 characters. -/
def validateText (text : String) : Option String :=
  let trimmed := jsTrim text
  if trimmed = "" then some "Bericht mag niet leeg zijn."
  else if trimmed.length > 500 then some "Bericht is te lang (max 500 tekens)."
  else none

/-- The `Client` record stored in `clientInfo`. -/
structure Client where
  id : String
  name : String
  connectedAt : Nat
deriving DecidableEq

/-- JavaScript `Map.get`: the unique binding for the key, if present. -/
def mapGet (m : List (String × α)) (key : String) : Option α :=
  match m with
  | [] => none
  | kv :: rest => if kv.1 = key then some kv.2 else mapGet rest key

/-- JavaScript `Map.set`: overwrite in place when the key exists (JavaScript keeps
the original insertion position), append otherwise. -/
def mapSet (m : List (String × α)) (key : String) (v : α) : List (String × α) :=
  match m with
  | [] => [(key, v)]
  | kv :: rest => if kv.1 = key then (key, v) :: rest else kv :: mapSet rest key v

/-- JavaScript `Map.delete`: remove the binding for the key. -/
def mapDelete (m : List (String × α)) (key : String) : List (String × α) :=
  match m with
  | [] => []
  | kv :: rest => if kv.1 = key then rest else kv :: mapDelete rest key

/-- The call `clients.set(id, ws)` seen through its key list: JavaScript `Map`
keeps the position of an existing key and appends a fresh one. -/
def idsAdd (ids : List String) (id : String) : List String :=
  if id ∈ ids then ids else ids ++ [id]

/-- The call `clients.delete(id)` on the key list. -/
def idsDelete (ids : List String) (id : String) : List String :=
  ids.filter (fun i => i ≠ id)

/-- The mutable module state of `ws-server.ts`.  The `clients` map holds
socket handles keyed by id; only its insertion-ordered key list is
observable here, the handle itself carrying no modelled state. -/
structure ServerState where
  clients : List String
  clientInfo : List (String × Client)
  clientIp : List (String × String)
  messagesSent : Nat
deriving DecidableEq

/-- An entry of the outbound `listUsers` payload. -/
structure UserEntry where
  id : String
  name : String
deriving DecidableEq

/-- The `OutgoingMessage` union.  The wire field `from` is rendered as
`sender` and `at` as `atMs` (both are Lean keywords); `pong` is emitted
only by the spec-modelled full backend below. -/
inductive Outgoing where
  | chat (sender text : String) (atMs : Nat)
  | system (text : String) (atMs : Nat)
  | ackName (name : String) (atMs : Nat)
  | status (uptimeSeconds userCount messagesSent : Nat)
  | listUsers (users : List UserEntry)
  | pong (token : Option String) (atMs : Nat)
  | err (message : String)
deriving DecidableEq

/-- Effects of a handler: `send` a payload to one socket, or close it. -/
inductive Output where
  | send (toId : String) (msg : Outgoing)
  | closeConn (toId : String)
deriving DecidableEq

/-- Fan-out `broadcast(payload, exceptId?)`: serialize once, send to every entry
of the `clients` map except the excluded id, in insertion order. -/
def broadcast (st : ServerState) (payload : Outgoing) (exceptId : Option String) :
    List Output :=
  (match exceptId with
   | some ex => st.clients.filter (fun i => i ≠ ex)
   | none => st.clients).map (fun i => .send i payload)

/-- Snapshot `buildStatus`: uptime (the float `process.uptime().toFixed(2)` is
abstracted to a parameter), current `clients.size`, and the cumulative
counter. -/
def buildStatus (uptimeSeconds : Nat) (st : ServerState) : Outgoing :=
  .status uptimeSeconds st.clients.length st.messagesSent

/-- The `websocket.open` handler: generate the guest name from the fresh
id, register socket, ip and client record, ack the name to the new
connection, then announce the join to everyone else.  The separate
`Date.now()` calls of the source are identified with one instant `now`. -/
def handleOpen (now : Nat) (id : String) (ip : Option String) (st : ServerState) :
    ServerState × List Output :=
  let name := "guest-" ++ (id.take 6)
  let st1 : ServerState := { st with clients := idsAdd st.clients id }
  let st2 : ServerState :=
    match ip with
    | some ipStr => { st1 with clientIp := mapSet st1.clientIp id ipStr }
    | none => st1
  let st3 : ServerState :=
    { st2 with clientInfo := mapSet st2.clientInfo id { id := id, name := name, connectedAt := now } }
  (st3,
    .send id (.ackName name now) ::
      broadcast st3 (.system (name ++ " heeft de chat betreden.") now) (some id))

/-- The `websocket.message` handler.  The socket's stored id is taken as
given (`ws.data.id`); a missing registry record closes the socket as in
the source.  Timestamps of one dispatch are identified with `now`. -/
def handleMessage (now uptimeSeconds : Nat) (clientId : String) (raw : String)
    (st : ServerState) : ServerState × List Output :=
  match mapGet st.clientInfo clientId with
  | none => (st, [.closeConn clientId])
  | some client =>
    match parseIncoming raw with
    | .err m => (st, [.send clientId (.err m)])
    | .chat text =>
      match validateText text with
      | some msg => (st, [.send clientId (.err msg)])
      | none =>
        let st1 : ServerState := { st with messagesSent := st.messagesSent + 1 }
        (st1, broadcast st1 (.chat client.name (jsTrim text) now) none)
    | .setName name =>
      match validateName name with
      | some msg => (st, [.send clientId (.err msg)])
      | none =>
        let newName := jsTrim name
        let oldName := client.name
        let st1 : ServerState :=
          { st with clientInfo := mapSet st.clientInfo clientId { client with name := newName } }
        (st1,
          .send clientId (.ackName newName now) ::
            broadcast st1 (.system (oldName ++ " heet nu " ++ newName ++ ".") now) (some clientId))
    | .status => (st, [.send clientId (buildStatus uptimeSeconds st)])
    | .listUsers =>
      (st, [.send clientId (.listUsers (st.clientInfo.map (fun kv =>
        { id := kv.2.id, name := kv.2.name })))])

/-- The `websocket.close` handler: drop the three map entries, then
announce the leave (the leaver is already out of the receiver set; the
source still passes its id as `exceptId`). -/
def handleClose (now : Nat) (clientId : String) (st : ServerState) :
    ServerState × List Output :=
  let client := mapGet st.clientInfo clientId
  let st1 : ServerState :=
    { st with
      clients := idsDelete st.clients clientId,
      clientInfo := mapDelete st.clientInfo clientId,
      clientIp := mapDelete st.clientIp clientId }
  match client with
  | some c =>
    (st1, broadcast st1 (.system (c.name ++ " heeft de chat verlaten.") now) (some clientId))
  | none => (st1, [])

/-- Encoding by `JSON.stringify` of an outbound `listUsers` entry. -/
def encodeUser (u : UserEntry) : Json :=
  .obj [("id", .str u.id), ("name", .str u.name)]

/-- Encoding by `JSON.stringify` of an outbound message: object keys in the insertion
order of the source's object literals. -/
def encodeMessage (m : Outgoing) : Json :=
  match m with
  | .chat sender text atMs =>
    .obj [("type", .str "chat"), ("from", .str sender), ("text", .str text),
      ("at", .num (toString atMs))]
  | .system text atMs =>
    .obj [("type", .str "system"), ("text", .str text), ("at", .num (toString atMs))]
  | .ackName name atMs =>
    .obj [("type", .str "ackName"), ("name", .str name), ("at", .num (toString atMs))]
  | .status uptimeSeconds userCount messagesSent =>
    .obj [("type", .str "status"), ("uptimeSeconds", .num (toString uptimeSeconds)),
      ("userCount", .num (toString userCount)), ("messagesSent", .num (toString messagesSent))]
  | .listUsers users =>
    .obj [("type", .str "listUsers"), ("users", .arr (users.map encodeUser))]
  | .pong token atMs =>
    .obj [("type", .str "pong"),
      ("token", match token with | some t => .str t | none => .null),
      ("at", .num (toString atMs))]
  | .err message =>
    .obj [("type", .str "error"), ("message", .str message)]

/-- Keys of an encoded JSON object. -/
def objKeys (j : Json) : List String :=
  match j with
  | .obj fields => fields.map Prod.fst
  | _ => []

/-- String-typed field of a parsed frame, `none` when absent or of
another type. -/
def strField (data : Json) (key : String) : Option String :=
  match jsGet data key with
  | some (.str s) => some s
  | _ => none

/-- Modelled from the spec: the `ping` inbound variant (`{ type: "ping",
token? }`, token an opaque string) is implemented only in the `rust-ws`
backend, which is not under `src/`; the protocol documents under `src/`
only declare it.  The four variants of the TypeScript decoder keep their
source behaviour; `ping` echoes the optional token, absent or non-string
tokens decoding to `none` (wire `null`). -/
inductive IncomingFull where
  | chat (text : String)
  | setName (name : String)
  | status
  | listUsers
  | ping (token : Option String)
  | err (message : String)
deriving DecidableEq

/-- Modelled from the spec: the decoder of the full backend, extending
`parseIncoming` with the `ping` variant (see `IncomingFull`). -/
def parseIncomingFull (raw : String) : IncomingFull :=
  match jsonParse raw with
  | none => .err "Bericht moet JSON zijn."
  | some data =>
    match jsGet data "type" with
    | some (.str "chat") =>
      match jsGet data "text" with
      | some (.str text) => .chat text
      | _ => .err "Onbekend of onvolledig berichttype."
    | some (.str "setName") =>
      match jsGet data "name" with
      | some (.str name) => .setName name
      | _ => .err "Onbekend of onvolledig berichttype."
    | some (.str "status") => .status
    | some (.str "listUsers") => .listUsers
    | some (.str "ping") => .ping (strField data "token")
    | _ => .err "Onbekend of onvolledig berichttype."

/-- Modelled from the spec: the per-user chat rate-limit bucket (window
start in ms and count within the window); the limiter is implemented
only in the `rust-ws` backend, which is not under `src/` (`src/` only
declares `RATE_LIMIT_ENABLED` / `RATE_LIMIT_MSG_PER_MIN`). -/
structure RateBucket where
  windowStart : Nat
  count : Nat
deriving DecidableEq

/-- Modelled from the spec: rate-limit configuration — enabled flag and
maximum chat messages per user per minute. -/
structure RateConfig where
  enabled : Bool
  maxPerMinute : Nat
deriving DecidableEq

/-- Modelled from the spec: fixed-window rate check.  A message outside
the current window opens a fresh window; within the window and under the
limit it increments the count; at the limit it is rejected with the
remaining wait in whole seconds (rounded up), the bucket untouched. -/
def rateCheck (cfg : RateConfig) (now : Nat) (clientId : String)
    (buckets : List (String × RateBucket)) :
    List (String × RateBucket) × Option Nat :=
  if !cfg.enabled then (buckets, none)
  else
    match mapGet buckets clientId with
    | none => (mapSet buckets clientId { windowStart := now, count := 1 }, none)
    | some b =>
      if b.windowStart + 60000 ≤ now then
        (mapSet buckets clientId { windowStart := now, count := 1 }, none)
      else if b.count < cfg.maxPerMinute then
        (mapSet buckets clientId { b with count := b.count + 1 }, none)
      else
        (buckets, some ((b.windowStart + 60000 - now + 999) / 1000))

/-- Modelled from the spec: the rate-limit rejection, an `error` carrying
the remaining wait time in seconds. -/
def errorRateLimited (waitSecs : Nat) : String :=
  "Rate limit bereikt. Probeer het over " ++ toString waitSecs ++ " seconden opnieuw."

/-- State of the full backend: the TypeScript server state plus the
spec-modelled rate-limit buckets, keyed by connection id. -/
structure FullState where
  server : ServerState
  buckets : List (String × RateBucket)
deriving DecidableEq

/-- Modelled from the spec: the dispatch loop of the full backend.  All
variants shared with `ws-server.ts` keep its behaviour exactly; `ping`
answers the sender with a `pong` echoing the token (no broadcast, no
state change), and `chat` is validated first and then rate-limited, a
rejection sending the error to the sender only and dropping the
message. -/
def handleMessageFull (cfg : RateConfig) (now uptimeSeconds : Nat) (clientId : String)
    (raw : String) (st : FullState) : FullState × List Output :=
  match mapGet st.server.clientInfo clientId with
  | none => (st, [.closeConn clientId])
  | some client =>
    match parseIncomingFull raw with
    | .err m => (st, [.send clientId (.err m)])
    | .ping token => (st, [.send clientId (.pong token now)])
    | .chat text =>
      match validateText text with
      | some msg => (st, [.send clientId (.err msg)])
      | none =>
        match rateCheck cfg now clientId st.buckets with
        | (buckets1, some wait) =>
          ({ st with buckets := buckets1 }, [.send clientId (.err (errorRateLimited wait))])
        | (buckets1, none) =>
          let server1 : ServerState :=
            { st.server with messagesSent := st.server.messagesSent + 1 }
          ({ server := server1, buckets := buckets1 },
            broadcast server1 (.chat client.name (jsTrim text) now) none)
    | .setName name =>
      match validateName name with
      | some msg => (st, [.send clientId (.err msg)])
      | none =>
        let newName := jsTrim name
        let oldName := client.name
        let server1 : ServerState :=
          { st.server with
            clientInfo := mapSet st.server.clientInfo clientId { client with name := newName } }
        ({ st with server := server1 },
          .send clientId (.ackName newName now) ::
            broadcast server1 (.system (oldName ++ " heet nu " ++ newName ++ ".") now)
              (some clientId))
    | .status => (st, [.send clientId (buildStatus uptimeSeconds st.server)])
    | .listUsers =>
      (st, [.send clientId (.listUsers (st.server.clientInfo.map (fun kv =>
        { id := kv.2.id, name := kv.2.name })))])

/-- A connection-lifecycle or inbound-frame event of the TypeScript
server. -/
inductive Event where
  | eopen (id : String) (ip : Option String) (now : Nat)
  | eclose (id : String) (now : Nat)
  | emsg (id : String) (raw : String) (now uptimeSeconds : Nat)
deriving DecidableEq

/-- State after one event (outputs discarded). -/
def stepEvent (st : ServerState) (e : Event) : ServerState :=
  match e with
  | .eopen id ip now => (handleOpen now id ip st).1
  | .eclose id now => (handleClose now id st).1
  | .emsg id raw now u => (handleMessage now u id raw st).1

/-- State after a sequence of events. -/
def runTrace (st : ServerState) (tr : List Event) : ServerState :=
  tr.foldl stepEvent st

/-- A trace is valid when every open event carries an id not currently
registered and every close event an id that is (the transport hands the
handlers exactly such events: `open` generates a fresh uuid, `close`
fires once for an accepted socket). -/
def validTrace : ServerState → List Event → Bool
  | _, [] => true
  | st, e :: rest =>
    (match e with
     | .eopen id _ _ => !(st.clients.contains id)
     | .eclose id _ => st.clients.contains id
     | .emsg _ _ _ _ => true) && validTrace (stepEvent st e) rest

/-- Number of open events in a trace. -/
def countOpens : List Event → Nat
  | [] => 0
  | .eopen _ _ _ :: rest => countOpens rest + 1
  | _ :: rest => countOpens rest

/-- Number of close events in a trace. -/
def countCloses : List Event → Nat
  | [] => 0
  | .eclose _ _ :: rest => countCloses rest + 1
  | _ :: rest => countCloses rest

/-- The module state at process start. -/
def initialState : ServerState :=
  { clients := [], clientInfo := [], clientIp := [], messagesSent := 0 }

/-- Registry well-formedness: the socket map and the info map hold the
same ids in the same insertion order, without duplicates. -/
def Wf (st : ServerState) : Prop :=
  st.clients = st.clientInfo.map Prod.fst ∧ st.clients.Nodup

instance (st : ServerState) : Decidable (Wf st) := by
  unfold Wf; infer_instance

/-! ### Helper lemmas on the association-list maps -/

theorem mapGet_mem_keys {α : Type} {m : List (String × α)} {k : String} {v : α}
    (h : mapGet m k = some v) : k ∈ m.map Prod.fst := by
  induction m with
  | nil => simp [mapGet] at h
  | cons kv rest ih =>
    rw [List.map_cons, List.mem_cons]
    by_cases hk : kv.1 = k
    · exact Or.inl hk.symm
    · rw [mapGet, if_neg hk] at h
      exact Or.inr (ih h)

theorem mapGet_mapSet_self {α : Type} (m : List (String × α)) (k : String) (v : α) :
    mapGet (mapSet m k v) k = some v := by
  induction m with
  | nil => simp [mapGet, mapSet]
  | cons kv rest ih =>
    by_cases hk : kv.1 = k
    · rw [mapSet, if_pos hk, mapGet, if_pos rfl]
    · rw [mapSet, if_neg hk, mapGet, if_neg hk]
      exact ih

theorem mapSet_keys_of_mem {α : Type} {m : List (String × α)} {k : String}
    (h : k ∈ m.map Prod.fst) (v : α) :
    (mapSet m k v).map Prod.fst = m.map Prod.fst := by
  induction m with
  | nil => simp at h
  | cons kv rest ih =>
    rw [List.map_cons, List.mem_cons] at h
    by_cases hk : kv.1 = k
    · rw [mapSet, if_pos hk, List.map_cons, List.map_cons, hk]
    · rcases h with h | h
      · exact absurd h.symm hk
      · rw [mapSet, if_neg hk, List.map_cons, List.map_cons, ih h]

theorem mapSet_of_not_mem {α : Type} {m : List (String × α)} {k : String}
    (h : k ∉ m.map Prod.fst) (v : α) : mapSet m k v = m ++ [(k, v)] := by
  induction m with
  | nil => simp [mapSet]
  | cons kv rest ih =>
    rw [List.map_cons, List.mem_cons] at h
    push_neg at h
    have hk : kv.1 ≠ k := fun he => h.1 he.symm
    rw [mapSet, if_neg hk, ih h.2, List.cons_append]

theorem mapSet_length_of_mem {α : Type} {m : List (String × α)} {k : String}
    (h : k ∈ m.map Prod.fst) (v : α) : (mapSet m k v).length = m.length := by
  have hkeys := mapSet_keys_of_mem h v
  have h1 : ((mapSet m k v).map Prod.fst).length = (m.map Prod.fst).length := by rw [hkeys]
  simpa using h1

theorem mapDelete_length_of_mem {α : Type} {m : List (String × α)} {k : String}
    (h : k ∈ m.map Prod.fst) : (mapDelete m k).length + 1 = m.length := by
  induction m with
  | nil => simp at h
  | cons kv rest ih =>
    rw [List.map_cons, List.mem_cons] at h
    by_cases hk : kv.1 = k
    · rw [mapDelete, if_pos hk, List.length_cons]
    · rcases h with h | h
      · exact absurd h.symm hk
      · rw [mapDelete, if_neg hk, List.length_cons, List.length_cons, ih h]

theorem idsDelete_of_not_mem {l : List String} {x : String} (h : x ∉ l) :
    idsDelete l x = l := by
  unfold idsDelete
  apply List.filter_eq_self.mpr
  intro a ha
  have hne : a ≠ x := fun he => h (he ▸ ha)
  simp [hne]

theorem mapDelete_keys_nodup {α : Type} {m : List (String × α)} {k : String}
    (h : (m.map Prod.fst).Nodup) :
    (mapDelete m k).map Prod.fst = idsDelete (m.map Prod.fst) k := by
  induction m with
  | nil => rfl
  | cons kv rest ih =>
    rw [List.map_cons, List.nodup_cons] at h
    by_cases hk : kv.1 = k
    · rw [mapDelete, if_pos hk, List.map_cons]
      unfold idsDelete
      rw [List.filter_cons_of_neg (by simp [hk])]
      exact (idsDelete_of_not_mem (hk ▸ h.1)).symm
    · rw [mapDelete, if_neg hk, List.map_cons, List.map_cons, ih h.2]
      unfold idsDelete
      rw [List.filter_cons_of_pos (by simp [hk])]

theorem validateText_eq_none {text : String} (h1 : jsTrim text ≠ "")
    (h2 : (jsTrim text).length ≤ 500) : validateText text = none := by
  unfold validateText
  rw [if_neg h1, if_neg (by simpa using Nat.not_lt.mpr h2)]

theorem validateName_eq_some {name : String}
    (h : (jsTrim name).length < 2 ∨ 32 < (jsTrim name).length) :
    validateName name = some "Naam moet tussen 2 en 32 tekens zijn." := by
  unfold validateName
  have hcond : ((jsTrim name).length < 2 || (jsTrim name).length > 32) = true := by
    rcases h with h | h
    · simp [h]
    · simp [h]
  rw [if_pos (by simpa using hcond)]

/-! ### Claim theorems -/

/-- C1: an inbound chat frame whose trimmed text has length in [1,500],
processed for a registered connection, increments the global
`messagesSent` counter by exactly one and broadcasts a single chat
message to every currently registered connection (the sender included,
since it is registered), whose text is the trimmed input and whose
sender field is the connection's current registry name. -/
theorem C1_chat_broadcast (now uptimeSeconds : Nat) (clientId raw text : String)
    (st : ServerState) (client : Client)
    (hwf : Wf st)
    (hreg : mapGet st.clientInfo clientId = some client)
    (hparse : parseIncoming raw = .chat text)
    (hlo : 1 ≤ (jsTrim text).length) (hhi : (jsTrim text).length ≤ 500) :
    handleMessage now uptimeSeconds clientId raw st =
      ({ st with messagesSent := st.messagesSent + 1 },
        st.clients.map (fun i => .send i (.chat client.name (jsTrim text) now))) ∧
    clientId ∈ st.clients := by
  have hne : jsTrim text ≠ "" := by
    intro h0
    rw [h0] at hlo
    exact absurd hlo (by decide)
  have hv : validateText text = none := validateText_eq_none hne hhi
  refine ⟨?_, ?_⟩
  · simp [handleMessage, hreg, hparse, hv, broadcast]
  · rw [hwf.1]
    exact mapGet_mem_keys hreg

/-- Concrete two-client registry used by the witnesses. -/
def stTwo : ServerState :=
  { clients := ["i1", "i2"],
    clientInfo := [("i1", { id := "i1", name := "guest-aaaaaa", connectedAt := 5 }),
      ("i2", { id := "i2", name := "guest-bbbbbb", connectedAt := 6 })],
    clientIp := [],
    messagesSent := 7 }

/-- Witness for C1 at the frame `{"type":"chat","text":" hi "}`. -/
theorem C1_chat_broadcast_witness :
    handleMessage 100 50 "i1" "\x7b\"type\":\"chat\",\"text\":\" hi \"\x7d" stTwo =
      ({ stTwo with messagesSent := stTwo.messagesSent + 1 },
        stTwo.clients.map (fun i => .send i (.chat "guest-aaaaaa" (jsTrim " hi ") 100))) ∧
    "i1" ∈ stTwo.clients :=
  C1_chat_broadcast 100 50 "i1" "\x7b\"type\":\"chat\",\"text\":\" hi \"\x7d" " hi "
    stTwo { id := "i1", name := "guest-aaaaaa", connectedAt := 5 }
    (by decide) (by decide) (by decide) (by decide) (by decide)

/-- The name charset policy as the spec words it — letters, digits,
space, `-`, `_`.  Stated from the spec only to compare against
`validateName`, which does not enforce any charset rule. -/
def specNameCharOk (c : Char) : Bool :=
  c.isAlpha || c.isDigit || c = ' ' || c = '-' || c = '_'

/-- C2 counterexample: the name `"a@b"` violates the claimed charset
policy while its trimmed length 3 is inside [2,32]; yet `setName`
succeeds — the sender gets `ackName`, the others get the rename
`system` broadcast, no `error` is sent, and the stored display name
changes. -/
theorem C2_counterexample :
    ((jsTrim "a@b").data.all specNameCharOk = false ∧
      2 ≤ (jsTrim "a@b").length ∧ (jsTrim "a@b").length ≤ 32) ∧
    handleMessage 100 50 "i1" "\x7b\"type\":\"setName\",\"name\":\"a@b\"\x7d" stTwo =
      ({ stTwo with
          clientInfo := [("i1", { id := "i1", name := "a@b", connectedAt := 5 }),
            ("i2", { id := "i2", name := "guest-bbbbbb", connectedAt := 6 })] },
        [.send "i1" (.ackName "a@b" 100),
          .send "i2" (.system "guest-aaaaaa heet nu a@b." 100)]) ∧
    mapGet (handleMessage 100 50 "i1" "\x7b\"type\":\"setName\",\"name\":\"a@b\"\x7d"
        stTwo).1.clientInfo "i1" ≠
      mapGet stTwo.clientInfo "i1" := by decide

/-- C2 amended: only the length rule is enforced.  For every `setName`
frame whose trimmed name length is outside [2,32], processed for a
registered connection, the operation fails with one `error` to the
sender only and the whole state — in particular the sender's stored
display name — is unchanged.  (Charset violations are accepted, see the
counterexample.) -/
theorem C2_setName_rejected (now uptimeSeconds : Nat) (clientId raw name : String)
    (st : ServerState) (client : Client)
    (hreg : mapGet st.clientInfo clientId = some client)
    (hparse : parseIncoming raw = .setName name)
    (hlen : (jsTrim name).length < 2 ∨ 32 < (jsTrim name).length) :
    handleMessage now uptimeSeconds clientId raw st =
      (st, [.send clientId (.err "Naam moet tussen 2 en 32 tekens zijn.")]) := by
  simp [handleMessage, hreg, hparse, validateName_eq_some hlen]

/-- Witness for the amended C2 at the frame `{"type":"setName","name":"x"}`. -/
theorem C2_setName_rejected_witness :
    handleMessage 100 50 "i1" "\x7b\"type\":\"setName\",\"name\":\"x\"\x7d" stTwo =
      (stTwo, [.send "i1" (.err "Naam moet tussen 2 en 32 tekens zijn.")]) :=
  C2_setName_rejected 100 50 "i1" "\x7b\"type\":\"setName\",\"name\":\"x\"\x7d" "x"
    stTwo { id := "i1", name := "guest-aaaaaa", connectedAt := 5 }
    (by decide) (by decide) (by decide)

/-- C5: a frame on which `parseIncoming` fails — malformed JSON or an
unknown or incomplete type — produces exactly one `error` to the
offending connection, no state change, no broadcast and no close (the
connection stays open); since the state is untouched, any subsequent
frame on any connection is processed exactly as it would have been
without the bad frame.  `parseIncoming` and `handleMessage` are total
Lean functions, so no input can make the handler throw. -/
theorem C5_bad_frame_isolated (now uptimeSeconds : Nat) (clientId raw m : String)
    (st : ServerState) (client : Client)
    (hreg : mapGet st.clientInfo clientId = some client)
    (hparse : parseIncoming raw = .err m) :
    handleMessage now uptimeSeconds clientId raw st = (st, [.send clientId (.err m)]) ∧
    ∀ now2 up2 : Nat, ∀ clientId2 raw2 : String,
      handleMessage now2 up2 clientId2 raw2 (handleMessage now uptimeSeconds clientId raw st).1 =
        handleMessage now2 up2 clientId2 raw2 st := by
  have h1 : handleMessage now uptimeSeconds clientId raw st = (st, [.send clientId (.err m)]) := by
    simp [handleMessage, hreg, hparse]
  exact ⟨h1, fun now2 up2 clientId2 raw2 => by rw [h1]⟩

/-- Witness for C5 at the non-JSON frame `"not json"`. -/
theorem C5_bad_frame_isolated_witness :
    handleMessage 100 50 "i1" "not json" stTwo =
      (stTwo, [.send "i1" (.err "Bericht moet JSON zijn.")]) ∧
    ∀ now2 up2 : Nat, ∀ clientId2 raw2 : String,
      handleMessage now2 up2 clientId2 raw2 (handleMessage 100 50 "i1" "not json" stTwo).1 =
        handleMessage now2 up2 clientId2 raw2 stTwo :=
  C5_bad_frame_isolated 100 50 "i1" "not json" "Bericht moet JSON zijn."
    stTwo { id := "i1", name := "guest-aaaaaa", connectedAt := 5 }
    (by decide) (by decide)

/-- C6: on one connection, a valid chat, then a valid setName, then a
second valid chat: the first chat broadcast carries the pre-rename name,
the second carries the new (trimmed) name, and after the rename returns
the registry already stores the new name, so every later broadcast reads
it. -/
theorem C6_chat_rename_chat
    (n1 u1 n2 u2 n3 u3 : Nat) (clientId raw1 raw2 raw3 t1 nm t2 : String)
    (st : ServerState) (client : Client)
    (hreg : mapGet st.clientInfo clientId = some client)
    (hp1 : parseIncoming raw1 = .chat t1)
    (hp2 : parseIncoming raw2 = .setName nm)
    (hp3 : parseIncoming raw3 = .chat t2)
    (hv1 : validateText t1 = none)
    (hv2 : validateName nm = none)
    (hv3 : validateText t2 = none) :
    (handleMessage n1 u1 clientId raw1 st).2 =
      st.clients.map (fun i => .send i (.chat client.name (jsTrim t1) n1)) ∧
    mapGet (handleMessage n2 u2 clientId raw2
        (handleMessage n1 u1 clientId raw1 st).1).1.clientInfo clientId =
      some { client with name := jsTrim nm } ∧
    (handleMessage n3 u3 clientId raw3 (handleMessage n2 u2 clientId raw2
        (handleMessage n1 u1 clientId raw1 st).1).1).2 =
      st.clients.map (fun i => .send i (.chat (jsTrim nm) (jsTrim t2) n3)) := by
  have e1 : handleMessage n1 u1 clientId raw1 st =
      ({ st with messagesSent := st.messagesSent + 1 },
        st.clients.map (fun i => .send i (.chat client.name (jsTrim t1) n1))) := by
    simp [handleMessage, hreg, hp1, hv1, broadcast]
  have hreg1 : mapGet ({ st with messagesSent := st.messagesSent + 1 } :
      ServerState).clientInfo clientId = some client := hreg
  have e2 : (handleMessage n2 u2 clientId raw2
      ({ st with messagesSent := st.messagesSent + 1 } : ServerState)).1 =
      { st with
          messagesSent := st.messagesSent + 1,
          clientInfo := mapSet st.clientInfo clientId { client with name := jsTrim nm } } := by
    simp [handleMessage, hreg1, hp2, hv2]
  have hreg2 : mapGet ({ st with
        messagesSent := st.messagesSent + 1,
        clientInfo := mapSet st.clientInfo clientId { client with name := jsTrim nm } } :
      ServerState).clientInfo clientId = some { client with name := jsTrim nm } :=
    mapGet_mapSet_self st.clientInfo clientId { client with name := jsTrim nm }
  refine ⟨by rw [e1], ?_, ?_⟩
  · rw [e1, e2]
    exact hreg2
  · rw [e1, e2]
    simp [handleMessage, hreg2, hp3, hv3, broadcast]

/-- Witness for C6: chat "hi", rename to "Bas", chat "yo" on `stTwo`. -/
theorem C6_chat_rename_chat_witness :
    (handleMessage 1 1 "i1" "\x7b\"type\":\"chat\",\"text\":\"hi\"\x7d" stTwo).2 =
      stTwo.clients.map (fun i => .send i (.chat "guest-aaaaaa" (jsTrim "hi") 1)) ∧
    mapGet (handleMessage 2 2 "i1" "\x7b\"type\":\"setName\",\"name\":\"Bas\"\x7d"
        (handleMessage 1 1 "i1" "\x7b\"type\":\"chat\",\"text\":\"hi\"\x7d" stTwo).1).1.clientInfo
        "i1" =
      some { id := "i1", name := jsTrim "Bas", connectedAt := 5 } ∧
    (handleMessage 3 3 "i1" "\x7b\"type\":\"chat\",\"text\":\"yo\"\x7d"
        (handleMessage 2 2 "i1" "\x7b\"type\":\"setName\",\"name\":\"Bas\"\x7d"
          (handleMessage 1 1 "i1" "\x7b\"type\":\"chat\",\"text\":\"hi\"\x7d" stTwo).1).1).2 =
      stTwo.clients.map (fun i => .send i (.chat (jsTrim "Bas") (jsTrim "yo") 3)) :=
  C6_chat_rename_chat 1 1 2 2 3 3 "i1"
    "\x7b\"type\":\"chat\",\"text\":\"hi\"\x7d"
    "\x7b\"type\":\"setName\",\"name\":\"Bas\"\x7d"
    "\x7b\"type\":\"chat\",\"text\":\"yo\"\x7d"
    "hi" "Bas" "yo" stTwo { id := "i1", name := "guest-aaaaaa", connectedAt := 5 }
    (by decide) (by decide) (by decide) (by decide) (by decide) (by decide) (by decide)

/-- C8 counterexample: a status response of this backend carries only
`type`, `uptimeSeconds`, `userCount` and `messagesSent` — the peak
concurrent count and the cumulative connections accepted are not in the
response (nowhere in the state either), refuting the claim that every
status response contains them. -/
theorem C8_counterexample :
    handleMessage 100 50 "i1" "\x7b\"type\":\"status\"\x7d" stTwo =
      (stTwo, [.send "i1" (.status 50 2 7)]) ∧
    objKeys (encodeMessage (.status 50 2 7)) =
      ["type", "uptimeSeconds", "userCount", "messagesSent"] ∧
    "peakUsers" ∉ objKeys (encodeMessage (.status 50 2 7)) ∧
    "connectionsTotal" ∉ objKeys (encodeMessage (.status 50 2 7)) := by decide

/-- C8 amended: every status response contains the process uptime, the
current registry count as `userCount`, and the cumulative number of
messages sent, and is sent to the requester only; the peak concurrent
count and cumulative connections accepted are omitted by this minimal
profile, as are derived throughput and memory usage. -/
theorem C8_status_fields (now uptimeSeconds : Nat) (clientId raw : String)
    (st : ServerState) (client : Client)
    (hreg : mapGet st.clientInfo clientId = some client)
    (hparse : parseIncoming raw = .status) :
    handleMessage now uptimeSeconds clientId raw st =
      (st, [.send clientId (.status uptimeSeconds st.clients.length st.messagesSent)]) ∧
    objKeys (encodeMessage (buildStatus uptimeSeconds st)) =
      ["type", "uptimeSeconds", "userCount", "messagesSent"] := by
  constructor
  · simp [handleMessage, hreg, hparse, buildStatus]
  · simp [buildStatus, encodeMessage, objKeys]

/-- Witness for the amended C8 on the two-client registry. -/
theorem C8_status_fields_witness :
    handleMessage 100 50 "i1" "\x7b\"type\":\"status\"\x7d" stTwo =
      (stTwo, [.send "i1" (.status 50 stTwo.clients.length stTwo.messagesSent)]) ∧
    objKeys (encodeMessage (buildStatus 50 stTwo)) =
      ["type", "uptimeSeconds", "userCount", "messagesSent"] :=
  C8_status_fields 100 50 "i1" "\x7b\"type\":\"status\"\x7d" stTwo
    { id := "i1", name := "guest-aaaaaa", connectedAt := 5 }
    (by decide) (by decide)

/-- Lowercase hexadecimal digit, the alphabet of `crypto.randomUUID`
apart from the dashes. -/
def isLowerHexChar (c : Char) : Bool :=
  isDigitChar c || ('a' ≤ c && c ≤ 'f')

/-- C7: on a new connection with a fresh uuid, the server registers the
connection under that id (appended to the registry), assigns the display
name `guest-` followed by the first 6 characters of the uuid (6 lowercase
hex digits, by the uuid format carried in the hypothesis), sends
`ackName` with that name to the new connection first, and then
broadcasts the `system` join announcement to exactly the previously
registered connections — everyone except the new one. -/
theorem C7_open_announces (now : Nat) (id : String) (ip : Option String)
    (st : ServerState)
    (hwf : Wf st)
    (hfresh : id ∉ st.clients)
    (hhex6 : (id.take 6).length = 6 ∧ (id.take 6).data.all isLowerHexChar = true) :
    handleOpen now id ip st =
      ({ st with
          clients := st.clients ++ [id],
          clientIp := (match ip with
            | some ipStr => mapSet st.clientIp id ipStr
            | none => st.clientIp),
          clientInfo := st.clientInfo ++
            [(id, { id := id, name := "guest-" ++ id.take 6, connectedAt := now })] },
        .send id (.ackName ("guest-" ++ id.take 6) now) ::
          st.clients.map (fun i =>
            .send i (.system ("guest-" ++ id.take 6 ++ " heeft de chat betreden.") now))) ∧
    ((id.take 6).length = 6 ∧ (id.take 6).data.all isLowerHexChar = true) := by
  have hinfo : id ∉ st.clientInfo.map Prod.fst := by
    rw [← hwf.1]
    exact hfresh
  have hadd : idsAdd st.clients id = st.clients ++ [id] := by
    unfold idsAdd
    rw [if_neg hfresh]
  have hset := mapSet_of_not_mem hinfo
    { id := id, name := "guest-" ++ id.take 6, connectedAt := now }
  have hfilter : st.clients.filter (fun i => !decide (i = id)) = st.clients := by
    apply List.filter_eq_self.mpr
    intro a ha
    have hne : a ≠ id := fun he => hfresh (he ▸ ha)
    simp [hne]
  refine ⟨?_, hhex6⟩
  cases ip with
  | none => simp [handleOpen, hadd, hset, broadcast, hfilter]
  | some ipStr => simp [handleOpen, hadd, hset, broadcast, hfilter]

/-- Witness for C7: a fresh uuid joining the two-client registry. -/
theorem C7_open_announces_witness :
    handleOpen 100 "c3d4e5-99xx" (some "1.2.3.4") stTwo =
      ({ stTwo with
          clients := stTwo.clients ++ ["c3d4e5-99xx"],
          clientIp := (match (some "1.2.3.4" : Option String) with
            | some ipStr => mapSet stTwo.clientIp "c3d4e5-99xx" ipStr
            | none => stTwo.clientIp),
          clientInfo := stTwo.clientInfo ++
            [("c3d4e5-99xx", { id := "c3d4e5-99xx", name := "guest-" ++ "c3d4e5-99xx".take 6, connectedAt := 100 })] },
        .send "c3d4e5-99xx" (.ackName ("guest-" ++ "c3d4e5-99xx".take 6) 100) ::
          stTwo.clients.map (fun i =>
            .send i (.system ("guest-" ++ "c3d4e5-99xx".take 6 ++
              " heeft de chat betreden.") 100))) ∧
    (("c3d4e5-99xx".take 6).length = 6 ∧
      ("c3d4e5-99xx".take 6).data.all isLowerHexChar = true) :=
  C7_open_announces 100 "c3d4e5-99xx" (some "1.2.3.4") stTwo
    (by decide) (by decide) (by decide)

/-- Full-backend state over the two-client registry, no buckets yet. -/
def stTwoFull : FullState :=
  { server := stTwo, buckets := [] }

/-- C3: for a registered connection of the full backend, a ping frame
with token `"abc"` yields exactly one `pong` with that token sent to the
sender only, and a ping without token yields exactly one `pong` with a
null token; the state is untouched and nothing is broadcast. -/
theorem C3_ping_pong (cfg : RateConfig) (now uptimeSeconds : Nat) (clientId : String)
    (st : FullState) (client : Client)
    (hreg : mapGet st.server.clientInfo clientId = some client) :
    handleMessageFull cfg now uptimeSeconds clientId
        "\x7b\"type\":\"ping\",\"token\":\"abc\"\x7d" st =
      (st, [.send clientId (.pong (some "abc") now)]) ∧
    handleMessageFull cfg now uptimeSeconds clientId "\x7b\"type\":\"ping\"\x7d" st =
      (st, [.send clientId (.pong none now)]) := by
  have h1 : parseIncomingFull "\x7b\"type\":\"ping\",\"token\":\"abc\"\x7d" =
      .ping (some "abc") := by decide
  have h2 : parseIncomingFull "\x7b\"type\":\"ping\"\x7d" = .ping none := by decide
  constructor
  · simp [handleMessageFull, hreg, h1]
  · simp [handleMessageFull, hreg, h2]

/-- Witness for C3 on the two-client full state. -/
theorem C3_ping_pong_witness :
    handleMessageFull { enabled := false, maxPerMinute := 60 } 100 50 "i1"
        "\x7b\"type\":\"ping\",\"token\":\"abc\"\x7d" stTwoFull =
      (stTwoFull, [.send "i1" (.pong (some "abc") 100)]) ∧
    handleMessageFull { enabled := false, maxPerMinute := 60 } 100 50 "i1"
        "\x7b\"type\":\"ping\"\x7d" stTwoFull =
      (stTwoFull, [.send "i1" (.pong none 100)]) :=
  C3_ping_pong { enabled := false, maxPerMinute := 60 } 100 50 "i1" stTwoFull
    { id := "i1", name := "guest-aaaaaa", connectedAt := 5 } (by decide)

/-- The rate-limit configuration of the C4 scenario: enabled, at most 2
chat messages per user per minute. -/
def cfgTwoPerMin : RateConfig :=
  { enabled := true, maxPerMinute := 2 }

/-- Frames sent by one connection, each with its arrival time, processed
in order; the outputs of all dispatches are concatenated. -/
def runFullMsgs (cfg : RateConfig) (uptimeSeconds : Nat) (clientId : String)
    (msgs : List (Nat × String)) (st : FullState) : FullState × List Output :=
  match msgs with
  | [] => (st, [])
  | (now, raw) :: rest =>
    let r := handleMessageFull cfg now uptimeSeconds clientId raw st
    let r2 := runFullMsgs cfg uptimeSeconds clientId rest r.1
    (r2.1, r.2 ++ r2.2)

/-- C4: with the chat limit configured to 2 messages per user per
minute, a registered connection sending the same valid chat frame three
times inside one window gets exactly two broadcasts (one per accepted
message, each to every registered connection) followed by exactly one
`error` to the sender carrying the remaining wait in seconds; the
rejected third message leaves the whole state of the second untouched —
nothing is queued or retried — and the counter ends at +2. -/
theorem C4_third_chat_rejected
    (uptimeSeconds t1 t2 t3 : Nat) (clientId raw text : String)
    (st : FullState) (client : Client)
    (hreg : mapGet st.server.clientInfo clientId = some client)
    (hbucket : mapGet st.buckets clientId = none)
    (hparse : parseIncomingFull raw = .chat text)
    (hvalid : validateText text = none)
    (h2w : t2 < t1 + 60000)
    (h3w : t3 < t1 + 60000) :
    (runFullMsgs cfgTwoPerMin uptimeSeconds clientId [(t1, raw), (t2, raw), (t3, raw)] st).2 =
      st.server.clients.map (fun i => .send i (.chat client.name (jsTrim text) t1)) ++
      st.server.clients.map (fun i => .send i (.chat client.name (jsTrim text) t2)) ++
      [.send clientId (.err (errorRateLimited ((t1 + 60000 - t3 + 999) / 1000)))] ∧
    (runFullMsgs cfgTwoPerMin uptimeSeconds clientId
        [(t1, raw), (t2, raw), (t3, raw)] st).1.server =
      { st.server with messagesSent := st.server.messagesSent + 2 } ∧
    (runFullMsgs cfgTwoPerMin uptimeSeconds clientId
        [(t1, raw), (t2, raw), (t3, raw)] st).1.server.clientInfo = st.server.clientInfo := by
  have hnle2 : ¬ (t1 + 60000 ≤ t2) := Nat.not_le.mpr h2w
  have hnle3 : ¬ (t1 + 60000 ≤ t3) := Nat.not_le.mpr h3w
  have e1 : handleMessageFull cfgTwoPerMin t1 uptimeSeconds clientId raw st =
      ({ server := { st.server with messagesSent := st.server.messagesSent + 1 },
          buckets := mapSet st.buckets clientId { windowStart := t1, count := 1 } },
        st.server.clients.map (fun i => .send i (.chat client.name (jsTrim text) t1))) := by
    simp [handleMessageFull, hreg, hparse, hvalid, rateCheck, cfgTwoPerMin, hbucket, broadcast]
  have hb1 : mapGet (mapSet st.buckets clientId { windowStart := t1, count := 1 }) clientId =
      some { windowStart := t1, count := 1 } :=
    mapGet_mapSet_self st.buckets clientId { windowStart := t1, count := 1 }
  have e2 : handleMessageFull cfgTwoPerMin t2 uptimeSeconds clientId raw
      ({ server := { st.server with messagesSent := st.server.messagesSent + 1 },
          buckets := mapSet st.buckets clientId { windowStart := t1, count := 1 } } : FullState) =
      ({ server := { st.server with messagesSent := st.server.messagesSent + 1 + 1 },
          buckets := mapSet (mapSet st.buckets clientId { windowStart := t1, count := 1 })
            clientId { windowStart := t1, count := 2 } },
        st.server.clients.map (fun i => .send i (.chat client.name (jsTrim text) t2))) := by
    simp [handleMessageFull, hreg, hparse, hvalid, rateCheck, cfgTwoPerMin, hb1, hnle2, broadcast]
  have hb2 : mapGet (mapSet (mapSet st.buckets clientId { windowStart := t1, count := 1 })
      clientId { windowStart := t1, count := 2 }) clientId =
      some { windowStart := t1, count := 2 } :=
    mapGet_mapSet_self (mapSet st.buckets clientId { windowStart := t1, count := 1 })
      clientId { windowStart := t1, count := 2 }
  have e3 : handleMessageFull cfgTwoPerMin t3 uptimeSeconds clientId raw
      ({ server := { st.server with messagesSent := st.server.messagesSent + 1 + 1 },
          buckets := mapSet (mapSet st.buckets clientId { windowStart := t1, count := 1 })
            clientId { windowStart := t1, count := 2 } } : FullState) =
      ({ server := { st.server with messagesSent := st.server.messagesSent + 1 + 1 },
          buckets := mapSet (mapSet st.buckets clientId { windowStart := t1, count := 1 })
            clientId { windowStart := t1, count := 2 } },
        [.send clientId (.err (errorRateLimited ((t1 + 60000 - t3 + 999) / 1000)))]) := by
    simp [handleMessageFull, hreg, hparse, hvalid, rateCheck, cfgTwoPerMin, hb2, hnle3]
  have hsum : st.server.messagesSent + 1 + 1 = st.server.messagesSent + 2 := by omega
  refine ⟨?_, ?_, ?_⟩
  · simp [runFullMsgs, e1, e2, e3]
  · simp [runFullMsgs, e1, e2, e3, hsum]
  · simp [runFullMsgs, e1, e2, e3]

/-- Witness for C4: the frame `{"type":"chat","text":" hi "}` sent three
times within one minute against the 2-per-minute limit. -/
theorem C4_third_chat_rejected_witness :
    (runFullMsgs cfgTwoPerMin 50 "i1"
        [(1000, "\x7b\"type\":\"chat\",\"text\":\" hi \"\x7d"),
          (2000, "\x7b\"type\":\"chat\",\"text\":\" hi \"\x7d"),
          (3000, "\x7b\"type\":\"chat\",\"text\":\" hi \"\x7d")] stTwoFull).2 =
      stTwoFull.server.clients.map (fun i => .send i (.chat "guest-aaaaaa" (jsTrim " hi ") 1000)) ++
      stTwoFull.server.clients.map (fun i => .send i (.chat "guest-aaaaaa" (jsTrim " hi ") 2000)) ++
      [.send "i1" (.err (errorRateLimited ((1000 + 60000 - 3000 + 999) / 1000)))] ∧
    (runFullMsgs cfgTwoPerMin 50 "i1"
        [(1000, "\x7b\"type\":\"chat\",\"text\":\" hi \"\x7d"),
          (2000, "\x7b\"type\":\"chat\",\"text\":\" hi \"\x7d"),
          (3000, "\x7b\"type\":\"chat\",\"text\":\" hi \"\x7d")] stTwoFull).1.server =
      { stTwoFull.server with messagesSent := stTwoFull.server.messagesSent + 2 } ∧
    (runFullMsgs cfgTwoPerMin 50 "i1"
        [(1000, "\x7b\"type\":\"chat\",\"text\":\" hi \"\x7d"),
          (2000, "\x7b\"type\":\"chat\",\"text\":\" hi \"\x7d"),
          (3000, "\x7b\"type\":\"chat\",\"text\":\" hi \"\x7d")] stTwoFull).1.server.clientInfo =
      stTwoFull.server.clientInfo :=
  C4_third_chat_rejected 50 1000 2000 3000 "i1"
    "\x7b\"type\":\"chat\",\"text\":\" hi \"\x7d" " hi " stTwoFull
    { id := "i1", name := "guest-aaaaaa", connectedAt := 5 }
    (by decide) (by decide) (by decide) (by decide) (by decide) (by decide)

/-! ### Registry invariant along traces -/

/-- Full registry invariant: well-formedness plus every stored record
carrying its own key as its `id` field. -/
def Inv (st : ServerState) : Prop :=
  Wf st ∧ ∀ kv ∈ st.clientInfo, (kv : String × Client).2.id = kv.1

theorem mapGet_mem_pair {α : Type} {m : List (String × α)} {k : String} {v : α}
    (h : mapGet m k = some v) : (k, v) ∈ m := by
  induction m with
  | nil => simp [mapGet] at h
  | cons kv rest ih =>
    by_cases hk : kv.1 = k
    · rw [mapGet, if_pos hk] at h
      have hv : v = kv.2 := (Option.some.inj h).symm
      rw [List.mem_cons]
      left
      rw [← hk, hv]
    · rw [mapGet, if_neg hk] at h
      exact List.mem_cons_of_mem kv (ih h)

theorem mem_mapSet {α : Type} {m : List (String × α)} {k : String} {v : α} {kv : String × α}
    (h : kv ∈ mapSet m k v) : kv = (k, v) ∨ kv ∈ m := by
  induction m with
  | nil => simp [mapSet] at h; exact Or.inl h
  | cons kv1 rest ih =>
    by_cases hk : kv1.1 = k
    · rw [mapSet, if_pos hk, List.mem_cons] at h
      rcases h with h | h
      · exact Or.inl h
      · exact Or.inr (List.mem_cons_of_mem kv1 h)
    · rw [mapSet, if_neg hk, List.mem_cons] at h
      rcases h with h | h
      · exact Or.inr (h ▸ List.mem_cons_self kv1 rest)
      · rcases ih h with h2 | h2
        · exact Or.inl h2
        · exact Or.inr (List.mem_cons_of_mem kv1 h2)

theorem mem_mapDelete {α : Type} {m : List (String × α)} {k : String} {kv : String × α}
    (h : kv ∈ mapDelete m k) : kv ∈ m := by
  induction m with
  | nil => simp [mapDelete] at h
  | cons kv1 rest ih =>
    by_cases hk : kv1.1 = k
    · rw [mapDelete, if_pos hk] at h
      exact List.mem_cons_of_mem kv1 h
    · rw [mapDelete, if_neg hk, List.mem_cons] at h
      rcases h with h | h
      · exact h ▸ List.mem_cons_self kv1 rest
      · exact List.mem_cons_of_mem kv1 (ih h)

/-- The shape of the registry after one `message` dispatch: the socket
map is never touched, and the info map is either untouched or a rename
of a registered client. -/
theorem handleMessage_registry (now uptimeSeconds : Nat) (clientId raw : String)
    (st : ServerState) :
    (handleMessage now uptimeSeconds clientId raw st).1.clients = st.clients ∧
    ((handleMessage now uptimeSeconds clientId raw st).1.clientInfo = st.clientInfo ∨
      ∃ client newName, mapGet st.clientInfo clientId = some client ∧
        (handleMessage now uptimeSeconds clientId raw st).1.clientInfo =
          mapSet st.clientInfo clientId { client with name := newName }) := by
  cases hg : mapGet st.clientInfo clientId with
  | none => simp [handleMessage, hg]
  | some client =>
    cases hp : parseIncoming raw with
    | err m => simp [handleMessage, hg, hp]
    | status => simp [handleMessage, hg, hp]
    | listUsers => simp [handleMessage, hg, hp]
    | chat text =>
      cases hv : validateText text with
      | some msg => simp [handleMessage, hg, hp, hv]
      | none => simp [handleMessage, hg, hp, hv]
    | setName name =>
      cases hv : validateName name with
      | some msg => simp [handleMessage, hg, hp, hv]
      | none =>
        refine ⟨by simp [handleMessage, hg, hp, hv], Or.inr ⟨client, jsTrim name, rfl, ?_⟩⟩
        simp [handleMessage, hg, hp, hv]

/-- One valid event preserves the registry invariant and moves the
entry count by the event's open/close contribution. -/
theorem stepEvent_preserves (st : ServerState) (e : Event)
    (hInv : Inv st)
    (hval : (match e with
      | .eopen id _ _ => id ∉ st.clients
      | .eclose id _ => id ∈ st.clients
      | .emsg _ _ _ _ => True)) :
    Inv (stepEvent st e) ∧
    (stepEvent st e).clientInfo.length +
        (match e with | .eclose _ _ => 1 | _ => 0) =
      st.clientInfo.length + (match e with | .eopen _ _ _ => 1 | _ => 0) := by
  obtain ⟨⟨hkeys, hnd⟩, hid⟩ := hInv
  cases e with
  | eopen id ip now =>
    have hfresh : id ∉ st.clients := hval
    have hinfo : id ∉ st.clientInfo.map Prod.fst := by rw [← hkeys]; exact hfresh
    have hset := mapSet_of_not_mem hinfo
      { id := id, name := "guest-" ++ id.take 6, connectedAt := now }
    have hadd : idsAdd st.clients id = st.clients ++ [id] := by
      unfold idsAdd
      rw [if_neg hfresh]
    have hstep : stepEvent st (.eopen id ip now) =
        { st with
            clients := st.clients ++ [id],
            clientIp := (match ip with
              | some ipStr => mapSet st.clientIp id ipStr
              | none => st.clientIp),
            clientInfo := st.clientInfo ++
              [(id, { id := id, name := "guest-" ++ id.take 6, connectedAt := now })] } := by
      cases ip with
      | none => simp [stepEvent, handleOpen, hadd, hset]
      | some ipStr => simp [stepEvent, handleOpen, hadd, hset]
    rw [hstep]
    refine ⟨⟨⟨?_, ?_⟩, ?_⟩, ?_⟩
    · simp [hkeys]
    · simp only [List.nodup_append, List.nodup_cons, List.not_mem_nil, not_false_iff,
        List.nodup_nil, and_true, true_and]
      exact ⟨hnd, fun x hx he => hfresh ((List.mem_singleton.mp he) ▸ hx)⟩
    · intro kv hkv
      rw [List.mem_append] at hkv
      rcases hkv with hkv | hkv
      · exact hid kv hkv
      · rw [List.mem_singleton] at hkv
        rw [hkv]
    · simp
  | eclose id now =>
    have hmem : id ∈ st.clients := hval
    have hmemk : id ∈ st.clientInfo.map Prod.fst := by rw [← hkeys]; exact hmem
    have hndk : (st.clientInfo.map Prod.fst).Nodup := by rw [← hkeys]; exact hnd
    have hstep : (stepEvent st (.eclose id now)).clients = idsDelete st.clients id ∧
        (stepEvent st (.eclose id now)).clientInfo = mapDelete st.clientInfo id := by
      cases hg2 : mapGet st.clientInfo id with
      | none => constructor <;> simp [stepEvent, handleClose, hg2]
      | some c => constructor <;> simp [stepEvent, handleClose, hg2]
    refine ⟨⟨⟨?_, ?_⟩, ?_⟩, ?_⟩
    · rw [hstep.1, hstep.2, mapDelete_keys_nodup hndk, hkeys]
    · rw [hstep.1]
      unfold idsDelete
      exact hnd.filter _
    · intro kv hkv
      rw [hstep.2] at hkv
      exact hid kv (mem_mapDelete hkv)
    · rw [hstep.2]
      exact mapDelete_length_of_mem hmemk
  | emsg id raw now u =>
    have hreg := handleMessage_registry now u id raw st
    have hcl : (stepEvent st (.emsg id raw now u)).clients = st.clients := hreg.1
    rcases hreg.2 with hsame | ⟨client, newName, hget, hren⟩
    · have hsame2 : (stepEvent st (.emsg id raw now u)).clientInfo = st.clientInfo := hsame
      refine ⟨⟨⟨?_, ?_⟩, ?_⟩, ?_⟩
      · rw [hcl, hsame2, hkeys]
      · rw [hcl]; exact hnd
      · intro kv hkv
        rw [hsame2] at hkv
        exact hid kv hkv
      · rw [hsame2]
    · have hidc : client.id = id := hid (id, client) (mapGet_mem_pair hget)
      have hmemk : id ∈ st.clientInfo.map Prod.fst := mapGet_mem_keys hget
      have hren2 : (stepEvent st (.emsg id raw now u)).clientInfo =
          mapSet st.clientInfo id { client with name := newName } := hren
      refine ⟨⟨⟨?_, ?_⟩, ?_⟩, ?_⟩
      · rw [hcl, hren2, mapSet_keys_of_mem hmemk, hkeys]
      · rw [hcl]; exact hnd
      · intro kv hkv
        rw [hren2] at hkv
        rcases mem_mapSet hkv with hkv2 | hkv2
        · rw [hkv2]
          exact hidc
        · exact hid kv hkv2
      · rw [hren2, mapSet_length_of_mem hmemk]

/-- Along any valid trace the invariant holds and the entry count is
the running balance of opens minus closes. -/
theorem runTrace_accounting (tr : List Event) :
    ∀ st : ServerState, Inv st → validTrace st tr = true →
      Inv (runTrace st tr) ∧
      (runTrace st tr).clientInfo.length + countCloses tr =
        st.clientInfo.length + countOpens tr := by
  induction tr with
  | nil =>
    intro st hInv _
    exact ⟨hInv, rfl⟩
  | cons e rest ih =>
    intro st hInv hv
    cases e with
    | eopen id ip now =>
      have hv2 : ((!(st.clients.contains id)) &&
          validTrace (stepEvent st (.eopen id ip now)) rest) = true := hv
      rw [Bool.and_eq_true] at hv2
      have hval : id ∉ st.clients := by simpa using hv2.1
      have hstep := stepEvent_preserves st (.eopen id ip now) hInv hval
      have hrest := ih (stepEvent st (.eopen id ip now)) hstep.1 hv2.2
      refine ⟨hrest.1, ?_⟩
      have hlen : (stepEvent st (.eopen id ip now)).clientInfo.length + 0 =
          st.clientInfo.length + 1 := hstep.2
      have hlen2 := hrest.2
      have hrun : runTrace st (Event.eopen id ip now :: rest) =
          runTrace (stepEvent st (.eopen id ip now)) rest := rfl
      have hco : countOpens (Event.eopen id ip now :: rest) = countOpens rest + 1 := rfl
      have hcc : countCloses (Event.eopen id ip now :: rest) = countCloses rest := rfl
      rw [hrun, hco, hcc]
      omega
    | eclose id now =>
      have hv2 : ((st.clients.contains id) &&
          validTrace (stepEvent st (.eclose id now)) rest) = true := hv
      rw [Bool.and_eq_true] at hv2
      have hval : id ∈ st.clients := by simpa using hv2.1
      have hstep := stepEvent_preserves st (.eclose id now) hInv hval
      have hrest := ih (stepEvent st (.eclose id now)) hstep.1 hv2.2
      refine ⟨hrest.1, ?_⟩
      have hlen : (stepEvent st (.eclose id now)).clientInfo.length + 1 =
          st.clientInfo.length + 0 := hstep.2
      have hlen2 := hrest.2
      have hrun : runTrace st (Event.eclose id now :: rest) =
          runTrace (stepEvent st (.eclose id now)) rest := rfl
      have hco : countOpens (Event.eclose id now :: rest) = countOpens rest := rfl
      have hcc : countCloses (Event.eclose id now :: rest) = countCloses rest + 1 := rfl
      rw [hrun, hco, hcc]
      omega
    | emsg id raw now u =>
      have hv2 : (true && validTrace (stepEvent st (.emsg id raw now u)) rest) = true := hv
      rw [Bool.and_eq_true] at hv2
      have hstep := stepEvent_preserves st (.emsg id raw now u) hInv trivial
      have hrest := ih (stepEvent st (.emsg id raw now u)) hstep.1 hv2.2
      refine ⟨hrest.1, ?_⟩
      have hlen : (stepEvent st (.emsg id raw now u)).clientInfo.length + 0 =
          st.clientInfo.length + 0 := hstep.2
      have hlen2 := hrest.2
      have hrun : runTrace st (Event.emsg id raw now u :: rest) =
          runTrace (stepEvent st (.emsg id raw now u)) rest := rfl
      have hco : countOpens (Event.emsg id raw now u :: rest) = countOpens rest := rfl
      have hcc : countCloses (Event.emsg id raw now u :: rest) = countCloses rest := rfl
      rw [hrun, hco, hcc]
      omega

theorem filter_key_once {α : Type} {m : List (String × α)} {k : String}
    (hnd : (m.map Prod.fst).Nodup) (hmem : k ∈ m.map Prod.fst) :
    (m.filter (fun kv => kv.1 = k)).length = 1 := by
  induction m with
  | nil => simp at hmem
  | cons kv rest ih =>
    rw [List.map_cons, List.nodup_cons] at hnd
    rw [List.map_cons, List.mem_cons] at hmem
    by_cases hk : kv.1 = k
    · have hnone : rest.filter (fun kv2 => kv2.1 = k) = [] := by
        apply List.filter_eq_nil_iff.mpr
        intro kv2 hkv2
        simp only [decide_eq_true_eq]
        intro he
        exact hnd.1 (by rw [hk, ← he]; exact List.mem_map_of_mem Prod.fst hkv2)
      rw [List.filter_cons_of_pos (by simp [hk]), hnone]
      rfl
    · rcases hmem with h | h
      · exact absurd h.symm hk
      · rw [List.filter_cons_of_neg (by simp [hk])]
        exact ih hnd.2 h

/-- C9: starting from the empty registry, after any valid trace of N
open events and M close events (each close matching a live open, frames
freely interleaved), the registry holds exactly N−M entries, equal to
the number of currently open connections; a `listUsers` request from a
registered connection is answered to the sender only with the user list
built from the registry, whose length is N−M and in which every open
connection — renamed or not — appears exactly once. -/
theorem C9_listUsers_count (tr : List Event) (now uptimeSeconds : Nat)
    (clientId raw : String) (client : Client)
    (hv : validTrace initialState tr = true)
    (hparse : parseIncoming raw = .listUsers)
    (hreg : mapGet (runTrace initialState tr).clientInfo clientId = some client) :
    countCloses tr ≤ countOpens tr ∧
    (runTrace initialState tr).clients.length = countOpens tr - countCloses tr ∧
    handleMessage now uptimeSeconds clientId raw (runTrace initialState tr) =
      (runTrace initialState tr,
        [.send clientId (.listUsers ((runTrace initialState tr).clientInfo.map (fun kv =>
          { id := kv.2.id, name := kv.2.name })))]) ∧
    ((runTrace initialState tr).clientInfo.map (fun kv =>
      ({ id := kv.2.id, name := kv.2.name } : UserEntry))).length =
        countOpens tr - countCloses tr ∧
    ∀ uid ∈ (runTrace initialState tr).clients,
      (((runTrace initialState tr).clientInfo.map (fun kv =>
        ({ id := kv.2.id, name := kv.2.name } : UserEntry))).filter
          (fun u => u.id = uid)).length = 1 := by
  have hInv0 : Inv initialState := by
    refine ⟨⟨rfl, List.nodup_nil⟩, ?_⟩
    intro kv hkv
    simp [initialState] at hkv
  obtain ⟨⟨⟨hkeys, hnd⟩, hid⟩, hlen⟩ := runTrace_accounting tr initialState hInv0 hv
  have hlen0 : (runTrace initialState tr).clientInfo.length + countCloses tr =
      countOpens tr := by simpa [initialState] using hlen
  have hcl : (runTrace initialState tr).clients.length =
      (runTrace initialState tr).clientInfo.length := by
    rw [hkeys, List.length_map]
  refine ⟨by omega, by omega, ?_, ?_, ?_⟩
  · simp [handleMessage, hreg, hparse]
  · rw [List.length_map]
    omega
  · intro uid huid
    have huidk : uid ∈ (runTrace initialState tr).clientInfo.map Prod.fst := by
      rw [← hkeys]
      exact huid
    have hndk : ((runTrace initialState tr).clientInfo.map Prod.fst).Nodup := by
      rw [← hkeys]
      exact hnd
    rw [List.filter_map, List.length_map]
    have hcong : ∀ kv ∈ (runTrace initialState tr).clientInfo,
        ((fun u : UserEntry => decide (u.id = uid)) ∘ (fun kv : String × Client =>
          ({ id := kv.2.id, name := kv.2.name } : UserEntry))) kv = decide (kv.1 = uid) := by
      intro kv hkv
      have h2 : kv.2.id = kv.1 := hid kv hkv
      simp [Function.comp, h2]
    rw [List.filter_congr hcong]
    exact filter_key_once hndk huidk

/-- A valid witness trace: two joins, a rename by the first user, the
second user leaves. -/
def trC9 : List Event :=
  [.eopen "aaa111-x" none 1,
    .eopen "bbb222-y" (some "9.9.9.9") 2,
    .emsg "aaa111-x" "\x7b\"type\":\"setName\",\"name\":\"Cee\"\x7d" 3 3,
    .eclose "bbb222-y" 4]

/-- Witness for C9 on `trC9`: 2 opens, 1 close, one renamed user left. -/
theorem C9_listUsers_count_witness :
    countCloses trC9 ≤ countOpens trC9 ∧
    (runTrace initialState trC9).clients.length = countOpens trC9 - countCloses trC9 ∧
    handleMessage 10 10 "aaa111-x" "\x7b\"type\":\"listUsers\"\x7d" (runTrace initialState trC9) =
      (runTrace initialState trC9,
        [.send "aaa111-x" (.listUsers ((runTrace initialState trC9).clientInfo.map (fun kv =>
          { id := kv.2.id, name := kv.2.name })))]) ∧
    ((runTrace initialState trC9).clientInfo.map (fun kv =>
      ({ id := kv.2.id, name := kv.2.name } : UserEntry))).length =
        countOpens trC9 - countCloses trC9 ∧
    ∀ uid ∈ (runTrace initialState trC9).clients,
      (((runTrace initialState trC9).clientInfo.map (fun kv =>
        ({ id := kv.2.id, name := kv.2.name } : UserEntry))).filter
          (fun u => u.id = uid)).length = 1 :=
  C9_listUsers_count trC9 10 10 "aaa111-x" "\x7b\"type\":\"listUsers\"\x7d"
    { id := "aaa111-x", name := "Cee", connectedAt := 1 }
    (by decide) (by decide) (by decide)

/-- A `JSON.parse` failure is reported as the malformed-JSON error. -/
theorem parseIncoming_of_none {raw : String} (h : jsonParse raw = none) :
    parseIncoming raw = .err "Bericht moet JSON zijn." := by
  unfold parseIncoming
  rw [h]

/-- The decoder emits no other error message than the two fixed ones. -/
theorem parseIncoming_err_msgs {raw m : String} (h : parseIncoming raw = .err m) :
    m = "Bericht moet JSON zijn." ∨ m = "Onbekend of onvolledig berichttype." := by
  unfold parseIncoming at h
  split at h
  · injection h with h1
    exact Or.inl h1.symm
  · split at h
    · split at h
      · simp at h
      · injection h with h1
        exact Or.inr h1.symm
    · split at h
      · simp at h
      · injection h with h1
        exact Or.inr h1.symm
    · simp at h
    · simp at h
    · injection h with h1
      exact Or.inr h1.symm

/-- The malformed-JSON error is produced only when `JSON.parse` fails. -/
theorem parseIncoming_json_err_none {raw : String}
    (h : parseIncoming raw = .err "Bericht moet JSON zijn.") :
    jsonParse raw = none := by
  unfold parseIncoming at h
  split at h
  · assumption
  · split at h <;>
      first
        | (split at h <;> simp_all)
        | simp_all

/-- C10: `parseIncoming` is total — it is a Lean function on all of
`String`, so it cannot throw — and on every input it returns one of the
four recognized inbound variants or an error whose message is one of the
two fixed strings; the malformed-JSON message appears exactly when
`JSON.parse` fails, and it differs from the unknown-or-incomplete-type
message, so the two failure classes are distinguished. -/
theorem C10_parseIncoming_total (raw : String) :
    ((∃ text, parseIncoming raw = .chat text) ∨
      (∃ name, parseIncoming raw = .setName name) ∨
      parseIncoming raw = .status ∨
      parseIncoming raw = .listUsers ∨
      (∃ m, parseIncoming raw = .err m ∧
        (m = "Bericht moet JSON zijn." ∨ m = "Onbekend of onvolledig berichttype."))) ∧
    (parseIncoming raw = .err "Bericht moet JSON zijn." ↔ jsonParse raw = none) ∧
    ("Bericht moet JSON zijn." : String) ≠ "Onbekend of onvolledig berichttype." := by
  refine ⟨?_, ⟨?_, ?_⟩, by decide⟩
  · cases hr : parseIncoming raw with
    | chat text => exact Or.inl ⟨text, rfl⟩
    | setName name => exact Or.inr (Or.inl ⟨name, rfl⟩)
    | status => exact Or.inr (Or.inr (Or.inl rfl))
    | listUsers => exact Or.inr (Or.inr (Or.inr (Or.inl rfl)))
    | err m => exact Or.inr (Or.inr (Or.inr (Or.inr ⟨m, rfl, parseIncoming_err_msgs hr⟩)))
  · intro h1
    exact parseIncoming_json_err_none h1
  · intro h1
    exact parseIncoming_of_none h1

end Chatserver
